import Mathlib

/-!
Verification of the glos texture / window / viewport rendering substrate.

The definitions below are a shallow embedding of the Go sources:
  * `oswin/driver/glos/texture.go` (textureImpl and its methods),
  * the glos `windowImpl` run loop / `Close` path,
  * the `gi` `Viewport2D` rendering and compositing code.
Machine integers are modelled as `Int` (Go `int` overflow is irrelevant at
the sizes involved); fallible Go functions return `Except`.
-/

set_option maxHeartbeats 1000000

namespace Gi

/-- Go `image.Point`. -/
structure Pt where
  x : Int
  y : Int
deriving DecidableEq, Repr

/-- Go `Point.Add`. -/
def Pt.add (p q : Pt) : Pt := ⟨p.x + q.x, p.y + q.y⟩

/-- Go `Point.Sub`. -/
def Pt.sub (p q : Pt) : Pt := ⟨p.x - q.x, p.y - q.y⟩

/-- Go `image.Rectangle` (`Min`, `Max`). -/
structure Rect where
  rmin : Pt
  rmax : Pt
deriving DecidableEq, Repr

/-- Go `Rectangle.Dx`. -/
def Rect.dx (r : Rect) : Int := r.rmax.x - r.rmin.x

/-- Go `Rectangle.Dy`. -/
def Rect.dy (r : Rect) : Int := r.rmax.y - r.rmin.y

/-- Go `Rectangle.Size`. -/
def Rect.size (r : Rect) : Pt := ⟨r.dx, r.dy⟩

/-- Go `Rectangle.Empty`. -/
def Rect.isEmpty (r : Rect) : Bool :=
  decide (r.rmax.x ≤ r.rmin.x) || decide (r.rmax.y ≤ r.rmin.y)

/-- Go `Rectangle.Add`. -/
def Rect.add (r : Rect) (p : Pt) : Rect := ⟨r.rmin.add p, r.rmax.add p⟩

/-- Go `image.ZR`. -/
def zeroRect : Rect := ⟨⟨0, 0⟩, ⟨0, 0⟩⟩

/-- Go `Rectangle.Intersect`: clamp both rectangles together and normalize
an empty result to `ZR`. -/
def Rect.inter (r s : Rect) : Rect :=
  let t : Rect := ⟨⟨max r.rmin.x s.rmin.x, max r.rmin.y s.rmin.y⟩,
                   ⟨min r.rmax.x s.rmax.x, min r.rmax.y s.rmax.y⟩⟩
  if t.isEmpty then zeroRect else t

/-- Go `Point.In(r)`. -/
def Pt.inR (p : Pt) (r : Rect) : Prop :=
  r.rmin.x ≤ p.x ∧ p.x < r.rmax.x ∧ r.rmin.y ≤ p.y ∧ p.y < r.rmax.y

instance (p : Pt) (r : Rect) : Decidable (p.inR r) := by
  unfold Pt.inR
  infer_instance

/-- One 8-bit-per-channel RGBA pixel value. -/
structure Color where
  r : Nat
  g : Nat
  b : Nat
  a : Nat
deriving DecidableEq, Repr

/-- The zero color (fresh `image.NewRGBA` buffers are zero-filled). -/
def zeroColor : Color := ⟨0, 0, 0, 0⟩

/-- Go `*image.RGBA`: a flat `Pix` byte buffer with bounds `Rect` and row
`Stride` in bytes.  `pix o` is the pixel whose 4-byte group starts at byte
offset `o` of the buffer (the buffer is modelled at pixel granularity, one
`Color` per 4-byte group, indexed by the group's byte offset). -/
structure RGBA where
  rect : Rect
  stride : Int
  pix : Int → Color

/-- Go `RGBA.PixOffset(x, y)`. -/
def RGBA.pixOffset (m : RGBA) (x y : Int) : Int :=
  (y - m.rect.rmin.y) * m.stride + (x - m.rect.rmin.x) * 4

/-- The pixel of `m` at point `p` (what Go `m.At(p.X, p.Y)` reads from `Pix`). -/
def RGBA.pixAt (m : RGBA) (p : Pt) : Color := m.pix (m.pixOffset p.x p.y)

/-- Go `RGBA.Bounds()`. -/
def RGBA.bounds (m : RGBA) : Rect := m.rect

/-- The RGBA buffer produced in `rgbaImage` by `image.NewRGBA(img.Bounds())`
followed by `draw.Draw(rgba, rgba.Bounds(), img, image.Point{0,0}, draw.Src)`.
`NewRGBA` allocates a zero-filled packed buffer (stride `4*dx`).  The draw
aligns the destination rect's `Min` with the source point `(0,0)`, so pixel
`p` of the buffer receives `src.At(p - b.Min)`; the drawn region is clipped
both to the buffer bounds and to the source bounds translated by `b.Min`
(Go stdlib image types return the zero color outside their bounds, and the
draw clip keeps sampling inside the source bounds).  `pix` decodes a byte
offset back to its pixel coordinates using the packed stride. -/
def convertedRGBA (b : Rect) (f : Pt → Color) : RGBA :=
  { rect := b
    stride := 4 * b.dx
    pix := fun o =>
      let s := 4 * b.dx
      if 0 < s ∧ 0 ≤ o ∧ o % s % 4 = 0 then
        let p : Pt := ⟨b.rmin.x + o % s / 4, b.rmin.y + o / s⟩
        if p.inR b ∧ p.inR (b.add b.rmin) then f (p.sub b.rmin) else zeroColor
      else zeroColor }

/-- A Go `image.Image` handed to the texture API: either already an
`*image.RGBA` (taken as-is by `rgbaImage`), or any other pixel format,
modelled by its bounds and its `At` function. -/
inductive Img where
  | rgbaIm (m : RGBA)
  | otherIm (b : Rect) (atF : Pt → Color)

/-- `rgbaImage` from `texture.go`: an `*image.RGBA` is returned unchanged;
any other format is converted through a fresh `image.NewRGBA` buffer, with
the packed-stride check made before drawing. -/
def rgbaImage : Img → Except String RGBA
  | .rgbaIm m => .ok m
  | .otherIm b f =>
    let rgba := convertedRGBA b f
    if rgba.stride ≠ rgba.rect.size.x * 4 then
      .error "glos Texture2D: unsupported stride"
    else
      .ok rgba

/-- GPU texture-storage lifecycle calls issued through the `gl` package
(sampling-parameter and bind calls carry no pixel state and are not
tracked). -/
inductive AllocOp where
  | genTex
  | texImage (sz : Pt)
  | delTex
deriving DecidableEq, Repr

/-- `gl.TexImage2D(TEXTURE_2D, 0, RGBA, w, h, 0, RGBA, UNSIGNED_BYTE, data)`:
defines a `w × h` texture.  With `data` a flat buffer, texel `(x, y)` is
read from byte offset `y*w*4 + x*4` (tightly packed rows); with `data = nil`
the texels are left uninitialized (modelled as keeping the prior function). -/
def texImage2D (gpu : Pt → Color) (w h : Int) (data : Option (Int → Color)) : Pt → Color :=
  fun p =>
    if 0 ≤ p.x ∧ p.x < w ∧ 0 ≤ p.y ∧ p.y < h then
      match data with
      | some d => d (p.y * (w * 4) + p.x * 4)
      | none => gpu p
    else gpu p

/-- `gl.TexSubImage2D(TEXTURE_2D, 0, xoff, yoff, w, h, RGBA, UNSIGNED_BYTE,
data)`: overwrites texels `(xoff..xoff+w, yoff..yoff+h)` with rows read
tightly packed from `data`. -/
def texSubImage2D (gpu : Pt → Color) (xoff yoff w h : Int) (data : Int → Color) : Pt → Color :=
  fun p =>
    if xoff ≤ p.x ∧ p.x < xoff + w ∧ yoff ≤ p.y ∧ p.y < yoff + h then
      data ((p.y - yoff) * (w * 4) + (p.x - xoff) * 4)
    else gpu p

/-- `textureImpl` from `texture.go` (the `name` and framebuffer fields play no
role in the claims).  `gpu` is the GPU-resident texel storage, meaningful
while `init = true`; `glAlloc` records the storage lifecycle calls issued. -/
structure Tex where
  init : Bool
  size : Pt
  img : Option RGBA
  gpu : Pt → Color
  glAlloc : List AllocOp

/-- `textureImpl.Bounds()`: `image.Rectangle{Max: tx.size}`. -/
def Tex.bounds (tx : Tex) : Rect := ⟨⟨0, 0⟩, tx.size⟩

/-- `textureImpl.Activate(texNo)`: on first call generate and define the GPU
storage from the current image (or leave it uninitialized); afterwards the
call only rebinds. -/
def Tex.activate (tx : Tex) (_texNo : Int) : Tex :=
  if tx.init then tx
  else
    { tx with
      init := true
      gpu := texImage2D tx.gpu tx.size.x tx.size.y (tx.img.map RGBA.pix)
      glAlloc := tx.glAlloc ++ [.genTex, .texImage tx.size] }

/-- `textureImpl.Delete()`: release the GPU storage; no-op when not resident. -/
def Tex.delete (tx : Tex) : Tex :=
  if tx.init then
    { tx with init := false, glAlloc := tx.glAlloc ++ [.delTex] }
  else tx

/-- `textureImpl.SetImage(img)` from `texture.go`. -/
def Tex.setImage (tx : Tex) (im : Img) : Except String Tex :=
  match rgbaImage im with
  | .error e => .error e
  | .ok rgba =>
    let tx1 := { tx with img := some rgba, size := rgba.rect.size }
    if tx1.init then .ok ((tx1.delete).activate 0) else .ok tx1

/-- The row-by-row upload loop of `SetSubImage` (`for y, p := dr.Min.Y, 0;
y < dr.Max.Y; y++ { TexSubImage2D(..., dr.Min.X, y, width, 1, pix[p:]); p +=
stride }`), as a recursion on the number of rows uploaded so far. -/
def subImageRows (gpu : Pt → Color) (dr : Rect) (stride : Int) (pix : Int → Color) :
    Nat → (Pt → Color)
  | 0 => gpu
  | n + 1 =>
    texSubImage2D (subImageRows gpu dr stride pix n)
      dr.rmin.x (dr.rmin.y + n) dr.dx 1 (fun o => pix (n * stride + o))

/-- `textureImpl.SetSubImage(dp, src, sr)` from `texture.go`. -/
def Tex.setSubImage (tx : Tex) (dp : Pt) (src : Img) (sr0 : Rect) : Except String Tex :=
  match rgbaImage src with
  | .error e => .error e
  | .ok rgba =>
    let src2dst := dp.sub sr0.rmin
    let sr := sr0.inter rgba.bounds
    let dr := (sr.add src2dst).inter tx.bounds
    if dr.isEmpty then .ok tx
    else
      let base := rgba.pixOffset (dr.rmin.x - src2dst.x) (dr.rmin.y - src2dst.y)
      let pix : Int → Color := fun o => rgba.pix (base + o)
      let tx1 := tx.activate 0
      let width := dr.dx
      if width * 4 = rgba.stride then
        .ok { tx1 with gpu := texSubImage2D tx1.gpu dr.rmin.x dr.rmin.y width dr.dy pix }
      else
        .ok { tx1 with gpu := subImageRows tx1.gpu dr rgba.stride pix dr.dy.toNat }

/-- `textureImpl.SetSize(size)` from `texture.go`. -/
def Tex.setSize (tx : Tex) (size : Pt) : Tex :=
  if tx.size = size then tx
  else
    let wasInit := tx.init
    let tx1 := if tx.init then tx.delete else tx
    let tx2 := { tx1 with size := size, img := none }
    if wasInit then tx2.activate 0 else tx2

/-- `textureImpl.Image()` from `texture.go`: when not resident, return the
cached image (or nil); when resident the source carries a todo ("get image
from buffer") and likewise returns the cached CPU-side image. -/
def Tex.image (tx : Tex) : Option RGBA :=
  if !tx.init then
    match tx.img with
    | none => none
    | some m => some m
  else
    tx.img

/-- The destination rectangle the code computes in `SetSubImage`: the source
rectangle clipped to the source bounds, translated from src-space to
dst-space, and clipped to the texture bounds. -/
def subImageDR (tx : Tex) (dp : Pt) (rgba : RGBA) (sr0 : Rect) : Rect :=
  ((sr0.inter rgba.bounds).add (dp.sub sr0.rmin)).inter tx.bounds

/-- The destination region named by the spec: `sourceRect` translated so its
`Min` lands at the offset `dp`, intersected with the destination bounds. -/
def specDestRect (tx : Tex) (dp : Pt) (sr0 : Rect) : Rect :=
  (sr0.add (dp.sub sr0.rmin)).inter tx.bounds

/-! Concrete inputs for the scenario claims. -/

/-- A fresh, never-activated texture with no image. -/
def tex0 : Tex := ⟨false, ⟨0, 0⟩, none, fun _ => zeroColor, []⟩

/-- Opaque black. -/
def blackC : Color := ⟨0, 0, 0, 255⟩

/-- Opaque red. -/
def redC : Color := ⟨255, 0, 0, 255⟩

/-- A packed `w × h` RGBA image (origin at (0,0)) whose every pixel is `c`. -/
def solidRGBA (w h : Int) (c : Color) : RGBA := ⟨⟨⟨0, 0⟩, ⟨w, h⟩⟩, 4 * w, fun _ => c⟩

/-- The 4×4 all-black texture of Scenario A: `SetImage` of a 4×4 black image
on a fresh texture. -/
def blackTex : Tex := (tex0.setImage (Img.rgbaIm (solidRGBA 4 4 blackC))).toOption.getD tex0

/-- Scenario A after `SetSubImage` of a 2×2 all-red source at offset (1,1). -/
def sceneTex : Tex :=
  (blackTex.setSubImage ⟨1, 1⟩ (Img.rgbaIm (solidRGBA 2 2 redC)) ⟨⟨0, 0⟩, ⟨2, 2⟩⟩).toOption.getD tex0

/-- The 4×4 black texture, explicitly activated (GPU-resident). -/
def blackTexA : Tex := blackTex.activate 0

/-- The activated black texture after the same 2×2 red `SetSubImage`. -/
def sceneTexA : Tex :=
  (blackTexA.setSubImage ⟨1, 1⟩ (Img.rgbaIm (solidRGBA 2 2 redC)) ⟨⟨0, 0⟩, ⟨2, 2⟩⟩).toOption.getD tex0

/-- A legal Go `*image.RGBA` value whose stride is not `width*4` (for example
any `RGBA.SubImage` of a wider image has the parent's stride). -/
def badStrideRGBA : RGBA := ⟨⟨⟨0, 0⟩, ⟨1, 1⟩⟩, 8, fun _ => zeroColor⟩

/-- Bounds of a 1×1 non-RGBA source image whose origin is not (0,0). -/
def c9Bounds : Rect := ⟨⟨1, 1⟩, ⟨2, 2⟩⟩

/-- Its `At` function: red inside the bounds, zero outside (as for the Go
stdlib image types). -/
def c9SrcAt : Pt → Color := fun p => if p.inR c9Bounds then redC else zeroColor

/-- The texture after `SetImage` of that source. -/
def c9Tex : Tex := (tex0.setImage (Img.otherIm c9Bounds c9SrcAt)).toOption.getD tex0

/-- Bounds of a 1×1 non-RGBA source image whose origin is (0,0). -/
def c9wB : Rect := ⟨⟨0, 0⟩, ⟨1, 1⟩⟩

/-- Its `At` function: red inside the bounds, zero outside. -/
def c9wAt : Pt → Color := fun p => if p.inR c9wB then redC else zeroColor

/-- The texture after `SetImage` of that origin-based source. -/
def c9wTex : Tex := (tex0.setImage (Img.otherIm c9wB c9wAt)).toOption.getD tex0

/-! The glos window run loop (`winLoop`, `RunOnWin`, `Publish`, `Close`),
as a labelled step relation.  All three channels (`runQueue`, `publish`,
`winClose`) are unbuffered, so an "enqueued" request is a sender blocked on
its rendezvous; `pendingRuns` / `pendingPubs` count such blocked senders and
`closePending` records that `Close()` is blocked sending on `winClose`.
While `loopAlive`, the loop's `select` may service any ready channel
(nondeterministic choice among ready cases, as in Go); receiving `winClose`
breaks the loop, after which `Close()`'s sender resumes and the cleanup
(close hook, close event, `winTex.Delete`, `glw.Destroy`) runs. -/

structure WinState where
  pendingRuns : Nat
  pendingPubs : Nat
  closePending : Bool
  loopAlive : Bool
  closeReceived : Bool
  cleanedUp : Bool
deriving DecidableEq, Repr

/-- The events of a window's lifetime around its run loop. -/
inductive WinEv where
  | enqRun
  | enqPub
  | enqClose
  | svcRun
  | svcPub
  | recvClose
  | cleanup
deriving DecidableEq, Repr

/-- One step of the window system; `none` when the event cannot fire in the
given state. -/
def winStep (s : WinState) : WinEv → Option WinState
  | .enqRun => some { s with pendingRuns := s.pendingRuns + 1 }
  | .enqPub => some { s with pendingPubs := s.pendingPubs + 1 }
  | .enqClose =>
    if s.closePending then none else some { s with closePending := true }
  | .svcRun =>
    if s.loopAlive ∧ 0 < s.pendingRuns then
      some { s with pendingRuns := s.pendingRuns - 1 }
    else none
  | .svcPub =>
    if s.loopAlive ∧ 0 < s.pendingPubs then
      some { s with pendingPubs := s.pendingPubs - 1 }
    else none
  | .recvClose =>
    if s.loopAlive ∧ s.closePending then
      some { s with closePending := false, loopAlive := false, closeReceived := true }
    else none
  | .cleanup =>
    if s.closeReceived ∧ s.cleanedUp = false then
      some { s with cleanedUp := true }
    else none

/-- Run a trace of events from a state; `none` when some event cannot fire. -/
def winRun (s : WinState) : List WinEv → Option WinState
  | [] => some s
  | e :: es =>
    match winStep s e with
    | none => none
    | some s1 => winRun s1 es

/-- The initial state of a freshly created window: loop running, nothing
pending. -/
def win0 : WinState := ⟨0, 0, false, true, false, false⟩

/-! `Viewport2D` compositing (`CopyBacking`, `DrawIntoParent`,
`RenderViewport2D`). -/

/-- An `*image.RGBA` viewed at pixel granularity (the viewport code never
inspects strides). -/
structure Buf where
  rect : Rect
  pix : Pt → Color

/-- `image.NewRGBA(r)`: zero-filled. -/
def newBuf (r : Rect) : Buf := ⟨r, fun _ => zeroColor⟩

/-- Go `draw.Draw(dst, r, src, sp, draw.Src)`: the affected region is `r`
clipped to the destination bounds and to the source bounds translated by
`r.Min - sp`; each affected pixel `p` is set to the source pixel at
`sp + (p - r.Min)`. -/
def drawSrc (dst : Buf) (r : Rect) (src : Buf) (sp : Pt) : Buf :=
  { dst with
    pix := fun p =>
      if p.inR ((r.inter dst.rect).inter (src.rect.add (r.rmin.sub sp))) then
        src.pix (sp.add (p.sub r.rmin))
      else dst.pix p }

/-- Modelled from the spec: `ViewBox2D` (defined outside src/) places the
viewport within its parent; `Bounds()` is the rectangle from its position
to position+size, `SizeRect()` the same size at the origin. -/
structure ViewBox2D where
  vmin : Pt
  vsize : Pt

def ViewBox2D.bounds (vb : ViewBox2D) : Rect := ⟨vb.vmin, vb.vmin.add vb.vsize⟩

def ViewBox2D.sizeRect (vb : ViewBox2D) : Rect := ⟨⟨0, 0⟩, vb.vsize⟩

/-- `Viewport2D`, restricted to the fields the compositing path touches. -/
structure VP where
  viewBox : ViewBox2D
  pixels : Buf
  backing : Option Buf

/-- `Viewport2D.CopyBacking(parVp)`: allocate the backing buffer on first
use, then copy the parent's pixels into it through the viewport's rect. -/
def VP.copyBacking (vp : VP) (par : VP) : VP :=
  let r := vp.viewBox.bounds
  let b0 :=
    match vp.backing with
    | none => newBuf vp.viewBox.sizeRect
    | some b => b
  { vp with backing := some (drawSrc b0 r par.pixels ⟨0, 0⟩) }

/-- `Viewport2D.DrawIntoParent(parVp)`: draw the backing buffer (when
present) and then the viewport's own pixels onto the parent, both with
`draw.Src`. -/
def VP.drawIntoParent (vp : VP) (par : VP) : VP :=
  let r := vp.viewBox.bounds
  let par1 :=
    match vp.backing with
    | none => par
    | some b => { par with pixels := drawSrc par.pixels r b ⟨0, 0⟩ }
  { par1 with pixels := drawSrc par1.pixels r vp.pixels ⟨0, 0⟩ }

/-- `Viewport2D.RenderViewport2D` for a viewport with a parent: CopyBacking
then DrawIntoParent; returns the updated (child, parent) pair. -/
def VP.renderIntoParent (vp : VP) (par : VP) : VP × VP :=
  let vp1 := vp.copyBacking par
  (vp1, vp1.drawIntoParent par)

/-! `SignalViewport2D`: the re-render decision rule. -/

/-- The `ki` node signals as seen by `SignalViewport2D`: the structural
("any mod": child added/deleted/moved) signals, the cosmetic ("any update")
signals, and the deleting/destroying signals it ignores. -/
inductive NodeSig where
  | nodeMod
  | nodeUpdated
  | nodeDeleting
deriving DecidableEq, Repr

/-- `ki.NodeSignalAnyMod`. -/
def nodeSignalAnyMod : NodeSig → Bool
  | .nodeMod => true
  | _ => false

/-- `ki.NodeSignalAnyUpdate`. -/
def nodeSignalAnyUpdate : NodeSig → Bool
  | .nodeUpdated => true
  | _ => false

/-- The originating node, as `SignalViewport2D` sees it: its
`CanReRender2D()` capability, its bounding box within the viewport, and
what its subtree paints (at the points it covers). -/
structure RNode where
  canReRender : Bool
  bbox : Rect
  paint : Pt → Color

/-- Rendering-pipeline operations a viewport performs in response to a
signal. -/
inductive VPOp where
  | fullRender
  | renderNode
  | styleFromNode
  | present
deriving DecidableEq, Repr

/-- A viewport's pixel buffer together with the log of pipeline operations
performed on it. -/
structure VPBuf where
  pixels : Pt → Color
  log : List VPOp

/-- Modelled from the spec: `FullRender2DTree` (defined outside src/) fully
re-renders the entire subtree, repainting every pixel of the viewport from
the scene content. -/
def fullRender2DTree (vp : VPBuf) (scene : Pt → Color) : VPBuf :=
  { pixels := scene, log := vp.log ++ [.fullRender] }

/-- Modelled from the spec: `ReRender2DTree` (defined outside src/)
re-renders the viewport entirely, like a full render. -/
def reRender2DTree (vp : VPBuf) (scene : Pt → Color) : VPBuf :=
  { pixels := scene, log := vp.log ++ [.fullRender] }

/-- Modelled from the spec: `Style2DTree` (defined outside src/) recomputes
style top-down from the node; it draws nothing. -/
def style2DTree (vp : VPBuf) : VPBuf := { vp with log := vp.log ++ [.styleFromNode] }

/-- `Viewport2D.ReRender2DNode` from src/: render the node's tree — which,
per the spec, draws only within the node's bounding box, compositing into
the existing pixel buffer — then `RenderViewport2D` presents the buffer
(for a root viewport this hands pixels to the window and leaves the buffer
untouched). -/
def reRender2DNode (vp : VPBuf) (n : RNode) : VPBuf :=
  { pixels := fun p => if p.inR n.bbox then n.paint p else vp.pixels p,
    log := vp.log ++ [.renderNode, .present] }

/-- `SignalViewport2D` from src/: structural ("any mod") signals force
`FullRender2DTree`; cosmetic ("any update") signals use `ReRender2DNode`
when the node reports `CanReRender2D`, and otherwise `Style2DTree` from the
node followed by `ReRender2DTree`; anything else does nothing. -/
def signalViewport2D (vp : VPBuf) (n : RNode) (sig : NodeSig) (scene : Pt → Color) : VPBuf :=
  if nodeSignalAnyMod sig then fullRender2DTree vp scene
  else if nodeSignalAnyUpdate sig then
    if n.canReRender then reRender2DNode vp n
    else reRender2DTree (style2DTree vp) scene
  else vp

/-! `Viewport2D.PushBounds` / `PopBounds` / `Render2D`: clip-stack
discipline. -/

/-- Modelled from the spec: the `RenderState` (defined outside src/) carries
a stack of clip rectangles and the canvas being drawn; `PushBounds` pushes
a clip rect and `PopBounds` pops the top one. -/
structure RState where
  boundsStack : List Rect
  canvas : Pt → Color

def RState.pushB (rs : RState) (b : Rect) : RState :=
  { rs with boundsStack := b :: rs.boundsStack }

def RState.popB (rs : RState) : RState :=
  { rs with boundsStack := rs.boundsStack.tail }

/-- `Viewport2D`, restricted to what `Render2D` touches. -/
structure VPR where
  vpBBox : Rect
  fill : Bool
  fillColor : Color
  viewBoxSize : Pt
  render : RState

/-- `Viewport2D.PushBounds` from src/: an empty `VpBBox` pushes nothing and
reports false; otherwise the box is pushed onto the render state's stack. -/
def VPR.pushBounds (vp : VPR) : VPR × Bool :=
  if vp.vpBBox.isEmpty then (vp, false)
  else ({ vp with render := vp.render.pushB vp.vpBBox }, true)

/-- `Viewport2D.PopBounds` from src/. -/
def VPR.popBounds (vp : VPR) : VPR := { vp with render := vp.render.popB }

/-- The `DrawRectangle` background fill of `Render2D`: paints the viewport's
rectangle on the canvas; the clip stack is untouched. -/
def drawRectangleFill (rs : RState) (sz : Pt) (c : Color) : RState :=
  { rs with canvas := fun p => if p.inR ⟨⟨0, 0⟩, sz⟩ then c else rs.canvas p }

/-- `Viewport2D.Render2D` from src/: if `PushBounds` succeeds, optionally
fill the background, render the children (`Render2DChildren`, abstracted as
a function on the shared render state), present via `RenderViewport2D`
(which does not touch the render state), and pop the bounds. -/
def VPR.render2D (vp : VPR) (children : RState → RState) : VPR :=
  match vp.pushBounds with
  | (_, false) => vp
  | (vp1, true) =>
    let vp2 :=
      if vp.fill then
        { vp1 with render := drawRectangleFill vp1.render vp.viewBoxSize vp.fillColor }
      else vp1
    let vp3 := { vp2 with render := children vp2.render }
    vp3.popBounds

/-! Concrete inputs for the viewport witnesses. -/

/-- A viewport buffer, all black, empty log. -/
def vpb0 : VPBuf := ⟨fun _ => blackC, []⟩

/-- A node that supports isolated re-render, painting red in its box. -/
def rnode0 : RNode := ⟨true, ⟨⟨1, 1⟩, ⟨3, 3⟩⟩, fun _ => redC⟩

/-- The same node without isolated re-render support. -/
def rnode1 : RNode := ⟨false, ⟨⟨1, 1⟩, ⟨3, 3⟩⟩, fun _ => redC⟩

/-- A scene that paints everything the zero color. -/
def scene0 : Pt → Color := fun _ => zeroColor

/-- A 2×2 child viewport at (1,1) inside the parent, all red, with a fresh
backing buffer. -/
def childVP : VP :=
  ⟨⟨⟨1, 1⟩, ⟨2, 2⟩⟩, ⟨⟨⟨0, 0⟩, ⟨2, 2⟩⟩, fun _ => redC⟩, some (newBuf ⟨⟨0, 0⟩, ⟨2, 2⟩⟩)⟩

/-- A 4×4 parent viewport, all black. -/
def parVP : VP := ⟨⟨⟨0, 0⟩, ⟨4, 4⟩⟩, ⟨⟨⟨0, 0⟩, ⟨4, 4⟩⟩, fun _ => blackC⟩, none⟩

/-- An empty render state. -/
def rstate0 : RState := ⟨[], fun _ => zeroColor⟩

/-- A viewport with a non-empty 4×4 box over the empty render state. -/
def vpr0 : VPR := ⟨⟨⟨0, 0⟩, ⟨4, 4⟩⟩, false, zeroColor, ⟨4, 4⟩, rstate0⟩

/-- A viewport whose box is empty. -/
def vprEmpty : VPR := ⟨⟨⟨0, 0⟩, ⟨0, 0⟩⟩, false, zeroColor, ⟨0, 0⟩, rstate0⟩

/-! Theorems. -/

theorem Rect.isEmpty_iff (r : Rect) : r.isEmpty = true ↔ ∀ p : Pt, ¬ p.inR r := by
  simp only [Rect.isEmpty, Bool.or_eq_true, decide_eq_true_eq, Pt.inR]
  constructor
  · intro h p hp
    omega
  · intro h
    by_contra hc
    push_neg at hc
    exact h ⟨r.rmin.x, r.rmin.y⟩ ⟨le_refl _, hc.1, le_refl _, hc.2⟩

theorem Pt.inR_inter {p : Pt} {r s : Rect} : p.inR (r.inter s) ↔ (p.inR r ∧ p.inR s) := by
  simp only [Rect.inter]
  split
  next h =>
    simp only [Rect.isEmpty, Bool.or_eq_true, decide_eq_true_eq] at h
    simp only [Pt.inR, zeroRect]
    omega
  next h =>
    simp only [Rect.isEmpty, Bool.or_eq_true, decide_eq_true_eq] at h
    push_neg at h
    simp only [Pt.inR]
    omega

theorem Pt.inR_add {p : Pt} {r : Rect} {q : Pt} : p.inR (r.add q) ↔ (p.sub q).inR r := by
  simp only [Pt.inR, Rect.add, Pt.add, Pt.sub]
  omega

/-- `rgbaImage` on a non-RGBA image never takes the stride error branch,
because the freshly allocated conversion buffer is packed. -/
theorem rgbaImage_otherIm (b : Rect) (f : Pt → Color) :
    rgbaImage (Img.otherIm b f) = .ok (convertedRGBA b f) := by
  have h : ¬ ((convertedRGBA b f).stride ≠ (convertedRGBA b f).rect.size.x * 4) := by
    dsimp only [convertedRGBA, Rect.size, Rect.dx]
    simp only [ne_eq, not_not]
    ring
  simp only [rgbaImage, if_neg h]

theorem subImageDR_sub_spec {tx : Tex} {dp : Pt} {rgba : RGBA} {sr0 : Rect} {q : Pt}
    (hq : q.inR (subImageDR tx dp rgba sr0)) : q.inR (specDestRect tx dp sr0) := by
  simp only [subImageDR, specDestRect, Pt.inR_inter, Pt.inR_add] at hq ⊢
  exact ⟨hq.1.1, hq.2⟩

theorem subImageRows_outside (gpu : Pt → Color) (dr : Rect) (stride : Int) (pix : Int → Color) :
    ∀ n : Nat, (n : Int) ≤ dr.dy → ∀ p : Pt, ¬ p.inR dr →
      subImageRows gpu dr stride pix n p = gpu p := by
  intro n
  induction n with
  | zero => intro _ p _; rfl
  | succ k ih =>
    intro hn p hp
    simp only [subImageRows, texSubImage2D]
    split
    next hc =>
      exfalso
      apply hp
      simp only [Pt.inR, Rect.dx] at hc ⊢
      simp only [Rect.dy] at hn
      omega
    next => exact ih (by omega) p hp

theorem Tex.activate_img (tx : Tex) (n : Int) : (tx.activate n).img = tx.img := by
  unfold Tex.activate
  split <;> rfl

theorem Tex.activate_size (tx : Tex) (n : Int) : (tx.activate n).size = tx.size := by
  unfold Tex.activate
  split <;> rfl

theorem Tex.activate_of_init (tx : Tex) (n : Int) (h : tx.init = true) : tx.activate n = tx := by
  unfold Tex.activate
  rw [if_pos h]

/-- Effect characterization of `SetSubImage`: it always succeeds, leaves the
cached image and logical size alone, is the identity when the clipped
destination rectangle is empty, and otherwise only rewrites GPU texels
inside that rectangle (on top of the auto-activation). -/
theorem setSubImage_spec (tx : Tex) (dp : Pt) (src : Img) (sr0 : Rect) :
    ∃ rgba tx2, rgbaImage src = .ok rgba ∧
      tx.setSubImage dp src sr0 = .ok tx2 ∧
      tx2.img = tx.img ∧ tx2.size = tx.size ∧
      ((subImageDR tx dp rgba sr0).isEmpty = true → tx2 = tx) ∧
      ((subImageDR tx dp rgba sr0).isEmpty = false →
        ∀ p : Pt, ¬ p.inR (subImageDR tx dp rgba sr0) → tx2.gpu p = (tx.activate 0).gpu p) := by
  have main : ∀ rgba : RGBA, rgbaImage src = .ok rgba →
      ∃ tx2, tx.setSubImage dp src sr0 = .ok tx2 ∧
        tx2.img = tx.img ∧ tx2.size = tx.size ∧
        ((subImageDR tx dp rgba sr0).isEmpty = true → tx2 = tx) ∧
        ((subImageDR tx dp rgba sr0).isEmpty = false →
          ∀ p : Pt, ¬ p.inR (subImageDR tx dp rgba sr0) → tx2.gpu p = (tx.activate 0).gpu p) := by
    intro rgba hok
    have hunf : tx.setSubImage dp src sr0 =
        (if (subImageDR tx dp rgba sr0).isEmpty then .ok tx
         else
          let dr := subImageDR tx dp rgba sr0
          let src2dst := dp.sub sr0.rmin
          let base := rgba.pixOffset (dr.rmin.x - src2dst.x) (dr.rmin.y - src2dst.y)
          let pix : Int → Color := fun o => rgba.pix (base + o)
          let tx1 := tx.activate 0
          let width := dr.dx
          if width * 4 = rgba.stride then
            .ok { tx1 with gpu := texSubImage2D tx1.gpu dr.rmin.x dr.rmin.y width dr.dy pix }
          else
            .ok { tx1 with gpu := subImageRows tx1.gpu dr rgba.stride pix dr.dy.toNat }) := by
      simp only [Tex.setSubImage, hok, subImageDR, RGBA.bounds]
    by_cases hdr : (subImageDR tx dp rgba sr0).isEmpty = true
    · refine ⟨tx, ?_, rfl, rfl, fun _ => rfl, fun hne => ?_⟩
      · rw [hunf, if_pos hdr]
      · rw [hdr] at hne
        exact absurd hne (by simp)
    · rw [hunf, if_neg hdr]
      dsimp only
      by_cases hw : (subImageDR tx dp rgba sr0).dx * 4 = rgba.stride
      · rw [if_pos hw]
        refine ⟨_, rfl, Tex.activate_img tx 0, Tex.activate_size tx 0,
          fun he => absurd he hdr, fun _ p hp => ?_⟩
        simp only [texSubImage2D]
        split
        next hc =>
          exfalso
          apply hp
          simp only [Pt.inR, Rect.dx, Rect.dy] at hc ⊢
          omega
        next => rfl
      · rw [if_neg hw]
        refine ⟨_, rfl, Tex.activate_img tx 0, Tex.activate_size tx 0,
          fun he => absurd he hdr, fun _ p hp => ?_⟩
        rcases le_or_lt 0 ((subImageDR tx dp rgba sr0).dy) with hdy | hdy
        · refine subImageRows_outside _ _ _ _ _ ?_ p hp
          omega
        · have h0 : (subImageDR tx dp rgba sr0).dy.toNat = 0 := by omega
          rw [h0]
          rfl
  cases src with
  | rgbaIm m =>
    obtain ⟨tx2, h⟩ := main m rfl
    exact ⟨m, tx2, rfl, h⟩
  | otherIm b f =>
    obtain ⟨tx2, h⟩ := main (convertedRGBA b f) (rgbaImage_otherIm b f)
    exact ⟨convertedRGBA b f, tx2, rgbaImage_otherIm b f, h⟩

/-- Claim C2: for every texture, destination offset, source image and source
rectangle, `SetSubImage` modifies only pixels inside
`intersect(translate(sourceRect, offset), destinationBounds)`: every GPU
texel outside that region is unchanged (stated for GPU-resident textures —
on a not-yet-resident texture the call first creates the GPU storage), and
when that intersection is empty the call returns success (nil error) with
no effect at all. -/
theorem setSubImage_clipping (tx : Tex) (dp : Pt) (src : Img) (sr0 : Rect) :
    ((specDestRect tx dp sr0).isEmpty = true → tx.setSubImage dp src sr0 = .ok tx) ∧
    (tx.init = true → ∀ tx2 : Tex, tx.setSubImage dp src sr0 = .ok tx2 →
      ∀ p : Pt, ¬ p.inR (specDestRect tx dp sr0) → tx2.gpu p = tx.gpu p) := by
  obtain ⟨rgba, tx2, hok, heq, himg, hsz, hemp, hne⟩ := setSubImage_spec tx dp src sr0
  constructor
  · intro he
    have hdr : (subImageDR tx dp rgba sr0).isEmpty = true := by
      rw [Rect.isEmpty_iff] at he ⊢
      intro q hq
      exact he q (subImageDR_sub_spec hq)
    rw [heq, hemp hdr]
  · intro hinit tx3 heq3 p hp
    rw [heq] at heq3
    injection heq3 with h3
    subst h3
    by_cases hdr : (subImageDR tx dp rgba sr0).isEmpty = true
    · rw [hemp hdr]
    · have h4 := hne (Bool.eq_false_iff.mpr hdr) p (fun hq => hp (subImageDR_sub_spec hq))
      rw [h4, Tex.activate_of_init tx 0 hinit]

/-- Witness for C2: an empty clipped region is a success no-op on the 4×4
black texture, and the red 2×2 upload at (1,1) leaves texel (0,0) of the
activated texture unchanged. -/
theorem setSubImage_clipping_witness :
    (blackTex.setSubImage ⟨5, 5⟩ (Img.rgbaIm (solidRGBA 2 2 redC)) ⟨⟨0, 0⟩, ⟨0, 0⟩⟩ =
      .ok blackTex) ∧
    sceneTexA.gpu ⟨0, 0⟩ = blackTexA.gpu ⟨0, 0⟩ :=
  ⟨(setSubImage_clipping blackTex ⟨5, 5⟩ (Img.rgbaIm (solidRGBA 2 2 redC))
      ⟨⟨0, 0⟩, ⟨0, 0⟩⟩).1 (by decide),
   (setSubImage_clipping blackTexA ⟨1, 1⟩ (Img.rgbaIm (solidRGBA 2 2 redC))
      ⟨⟨0, 0⟩, ⟨2, 2⟩⟩).2 (by decide) sceneTexA (by rfl) ⟨0, 0⟩ (by decide)⟩

/-- Claim C10: `SetSubImage` never touches the CPU-side cached image or the
logical size; it writes only the GPU side. -/
theorem setSubImage_cpu_unchanged (tx : Tex) (dp : Pt) (src : Img) (sr0 : Rect) (tx2 : Tex)
    (h : tx.setSubImage dp src sr0 = .ok tx2) :
    tx2.img = tx.img ∧ tx2.size = tx.size := by
  obtain ⟨rgba, tx3, hok, heq, himg, hsz, _, _⟩ := setSubImage_spec tx dp src sr0
  rw [heq] at h
  injection h with h3
  subst h3
  exact ⟨himg, hsz⟩

/-- Witness for C10 at the Scenario A input. -/
theorem setSubImage_cpu_unchanged_witness :
    sceneTex.img = blackTex.img ∧ sceneTex.size = blackTex.size :=
  setSubImage_cpu_unchanged blackTex ⟨1, 1⟩ (Img.rgbaIm (solidRGBA 2 2 redC))
    ⟨⟨0, 0⟩, ⟨2, 2⟩⟩ sceneTex (by rfl)

/-- Claim C3 (evaluation at the failing input): Scenario A uploads red to
GPU texels with row and column in 1–2 and leaves the other 12 GPU texels
black, but reading the texture's image back through `Image()` yields black
at every pixel — `SetSubImage` writes only the GPU storage while `Image()`
returns the stale CPU-side buffer (its body carries a todo where the
documented GPU read-back should be). -/
theorem sceneA_eval :
    (∀ x y : Fin 4, sceneTex.gpu ⟨(x.val : Int), (y.val : Int)⟩ =
      (if (1 ≤ x.val ∧ x.val ≤ 2) ∧ (1 ≤ y.val ∧ y.val ≤ 2) then redC else blackC)) ∧
    (∀ x y : Fin 4, (sceneTex.image).map (fun m => m.pixAt ⟨(x.val : Int), (y.val : Int)⟩) =
      some blackC) := by
  constructor <;> decide

theorem Tex.delete_img (tx : Tex) : (tx.delete).img = tx.img := by
  unfold Tex.delete
  split <;> rfl

/-- What `SetImage` stores: exactly the buffer `rgbaImage` produced. -/
theorem setImage_img (tx tx2 : Tex) (im : Img) (rgba : RGBA)
    (hok : rgbaImage im = .ok rgba) (h : tx.setImage im = .ok tx2) :
    tx2.img = some rgba := by
  simp only [Tex.setImage, hok] at h
  split at h
  · injection h with h1
    subst h1
    rw [Tex.activate_img, Tex.delete_img]
  · injection h with h1
    subst h1
    rfl

/-- Claim C4 counterexample: an input that is already an `*image.RGBA` is
stored as-is with a nil error even when its stride is not `width*4`
(`rgbaImage` checks the stride only in its conversion branch), so `SetImage`
can store a buffer whose stride differs from `width*4` without failing. -/
theorem setImage_stride_cex :
    tex0.setImage (Img.rgbaIm badStrideRGBA) =
      .ok { tex0 with img := some badStrideRGBA, size := ⟨1, 1⟩ } ∧
    badStrideRGBA.stride ≠ badStrideRGBA.rect.size.x * 4 :=
  ⟨rfl, by decide⟩

/-- Claim C4 amended: for every non-RGBA input, `SetImage` stores a buffer
whose stride is exactly `width*4` (or fails); an input that is already an
`*image.RGBA` is stored as-is with its stride unchecked. -/
theorem setImage_stride_amended (tx tx2 : Tex) :
    (∀ b f, tx.setImage (Img.otherIm b f) = .ok tx2 →
      ∀ m, tx2.img = some m → m.stride = m.rect.size.x * 4) ∧
    (∀ m0, tx.setImage (Img.rgbaIm m0) = .ok tx2 → tx2.img = some m0) := by
  constructor
  · intro b f h m hm
    have h2 := setImage_img tx tx2 _ _ (rgbaImage_otherIm b f) h
    rw [h2] at hm
    injection hm with h3
    subst h3
    dsimp only [convertedRGBA, Rect.size, Rect.dx]
    ring
  · intro m0 h
    exact setImage_img tx tx2 (Img.rgbaIm m0) m0 rfl h

/-- Witness for the amended C4: the conversion buffer for the shifted 1×1
source is packed, and the all-black RGBA image is stored as-is. -/
theorem setImage_stride_amended_witness :
    (convertedRGBA c9Bounds c9SrcAt).stride = (convertedRGBA c9Bounds c9SrcAt).rect.size.x * 4 ∧
    blackTex.img = some (solidRGBA 4 4 blackC) :=
  ⟨(setImage_stride_amended tex0 c9Tex).1 c9Bounds c9SrcAt (by rfl)
      (convertedRGBA c9Bounds c9SrcAt) (by rfl),
   (setImage_stride_amended tex0 blackTex).2 (solidRGBA 4 4 blackC) (by rfl)⟩

/-- Claim C9 counterexample: `SetImage` of a non-RGBA source whose bounds do
not start at the origin samples the source at `p - bounds.Min` (the
conversion draw uses source point (0,0)), so reading back yields the zero
color where the source is red: the round trip is not pixel-identical. -/
theorem setImage_roundtrip_cex :
    (c9Tex.image).map (fun m => m.pixAt ⟨1, 1⟩) = some zeroColor ∧
    c9SrcAt ⟨1, 1⟩ = redC ∧ zeroColor ≠ redC :=
  ⟨by decide, by decide, by decide⟩

theorem Tex.image_of_img (tx : Tex) (m : RGBA) (h : tx.img = some m) : tx.image = some m := by
  unfold Tex.image
  cases tx.init <;> simp [h]

/-- Decoding the byte offset of an in-bounds pixel of a conversion buffer
recovers that pixel: the converted value is the source sampled at
`p - b.Min`, clipped to the translated source bounds, zero elsewhere. -/
theorem convertedRGBA_pixAt (b : Rect) (f : Pt → Color) (p : Pt) (hp : p.inR b) :
    (convertedRGBA b f).pixAt p =
      if p.inR (b.add b.rmin) then f (p.sub b.rmin) else zeroColor := by
  obtain ⟨hx1, hx2, hy1, hy2⟩ := hp
  have hp' : p.inR b := ⟨hx1, hx2, hy1, hy2⟩
  have hdx : 0 < b.dx := by
    simp only [Rect.dx]
    omega
  unfold RGBA.pixAt convertedRGBA RGBA.pixOffset
  dsimp only
  have hnn : 0 ≤ (p.y - b.rmin.y) * (4 * b.dx) := mul_nonneg (by omega) (by omega)
  have e2 : ((p.y - b.rmin.y) * (4 * b.dx) + (p.x - b.rmin.x) * 4) / (4 * b.dx) =
      p.y - b.rmin.y := by
    rw [add_comm, mul_comm (p.y - b.rmin.y) (4 * b.dx),
      Int.add_mul_ediv_left _ _ (show (4 : Int) * b.dx ≠ 0 by omega),
      Int.ediv_eq_zero_of_lt (by omega) (by simp only [Rect.dx] at hdx ⊢; omega), zero_add]
  have e1 : ((p.y - b.rmin.y) * (4 * b.dx) + (p.x - b.rmin.x) * 4) % (4 * b.dx) =
      (p.x - b.rmin.x) * 4 := by
    rw [add_comm, mul_comm (p.y - b.rmin.y) (4 * b.dx), Int.add_mul_emod_self_left,
      Int.emod_eq_of_lt (by omega) (by simp only [Rect.dx] at hdx ⊢; omega)]
  rw [e1, e2]
  have e4 : (p.x - b.rmin.x) * 4 / 4 = p.x - b.rmin.x := by omega
  rw [e4]
  have hpt : (⟨b.rmin.x + (p.x - b.rmin.x), b.rmin.y + (p.y - b.rmin.y)⟩ : Pt) = p := by
    have h1 : b.rmin.x + (p.x - b.rmin.x) = p.x := by omega
    have h2 : b.rmin.y + (p.y - b.rmin.y) = p.y := by omega
    rw [h1, h2]
  rw [hpt]
  rw [if_pos (show 0 < 4 * b.dx ∧
      0 ≤ (p.y - b.rmin.y) * (4 * b.dx) + (p.x - b.rmin.x) * 4 ∧
      (p.x - b.rmin.x) * 4 % 4 = 0 from ⟨by omega, by omega, by omega⟩)]
  by_cases hq : p.inR (b.add b.rmin)
  · rw [if_pos ⟨hp', hq⟩, if_pos hq]
  · rw [if_neg (fun hc => hq hc.2), if_neg hq]

/-- Claim C9 amended: the round trip `SetImage` then `Image` is exact for
every `*image.RGBA` source, and pixel-identical for every other source
format whose bounds start at the origin (as decoded images do). -/
theorem setImage_roundtrip_amended (tx tx2 : Tex) :
    (∀ m0, tx.setImage (Img.rgbaIm m0) = .ok tx2 → tx2.image = some m0) ∧
    (∀ b f, tx.setImage (Img.otherIm b f) = .ok tx2 → b.rmin = ⟨0, 0⟩ →
      ∀ m, tx2.image = some m → ∀ p : Pt, p.inR b → m.pixAt p = f p) := by
  constructor
  · intro m0 h
    exact Tex.image_of_img _ _ (setImage_img tx tx2 (Img.rgbaIm m0) m0 rfl h)
  · intro b f h h0 m hm p hp
    have h2 : tx2.image = some (convertedRGBA b f) :=
      Tex.image_of_img _ _ (setImage_img tx tx2 _ _ (rgbaImage_otherIm b f) h)
    rw [h2] at hm
    injection hm with h3
    subst h3
    rw [convertedRGBA_pixAt b f p hp]
    have hsub : p.sub b.rmin = p := by
      rw [h0]
      show Pt.mk (p.x - 0) (p.y - 0) = p
      rw [Int.sub_zero, Int.sub_zero]
    have hmem : p.inR (b.add b.rmin) := by
      rw [Pt.inR_add, hsub]
      exact hp
    rw [if_pos hmem, hsub]

/-- Witness for the amended C9: the black 4×4 RGBA round-trips exactly, and
the origin-based 1×1 red source reads back red at (0,0). -/
theorem setImage_roundtrip_amended_witness :
    blackTex.image = some (solidRGBA 4 4 blackC) ∧
    (convertedRGBA c9wB c9wAt).pixAt ⟨0, 0⟩ = c9wAt ⟨0, 0⟩ :=
  ⟨(setImage_roundtrip_amended tex0 blackTex).1 (solidRGBA 4 4 blackC) (by rfl),
   (setImage_roundtrip_amended tex0 c9wTex).2 c9wB c9wAt (by rfl) (by rfl)
     (convertedRGBA c9wB c9wAt) (by rfl) ⟨0, 0⟩ (by decide)⟩

/-- Claim C8: `SetSize` with the current size changes nothing at all;
`SetSize` with a different size deletes any existing GPU storage, drops the
cached pixel buffer, and reallocates GPU storage if and only if the texture
was previously active. -/
theorem setSize_idempotent_and_realloc (tx : Tex) (s : Pt) :
    tx.setSize tx.size = tx ∧
    (s ≠ tx.size →
      (tx.setSize s).size = s ∧ (tx.setSize s).img = none ∧
      (tx.setSize s).init = tx.init ∧
      (tx.setSize s).glAlloc = tx.glAlloc ++
        (if tx.init then [AllocOp.delTex, AllocOp.genTex, AllocOp.texImage s] else [])) := by
  constructor
  · simp [Tex.setSize]
  · intro hs
    have hneq : ¬ tx.size = s := fun h => hs h.symm
    unfold Tex.setSize
    rw [if_neg hneq]
    dsimp only
    cases hinit : tx.init
    · simp [hinit, Tex.delete, Tex.activate]
    · simp [hinit, Tex.delete, Tex.activate, List.append_assoc]

/-- Witness for C8 on the resident black texture and a 2×2 resize. -/
theorem setSize_witness :
    blackTexA.setSize blackTexA.size = blackTexA ∧
    ((blackTexA.setSize ⟨2, 2⟩).size = ⟨2, 2⟩ ∧ (blackTexA.setSize ⟨2, 2⟩).img = none ∧
      (blackTexA.setSize ⟨2, 2⟩).init = blackTexA.init ∧
      (blackTexA.setSize ⟨2, 2⟩).glAlloc = blackTexA.glAlloc ++
        (if blackTexA.init then
          [AllocOp.delTex, AllocOp.genTex, AllocOp.texImage ⟨2, 2⟩] else [])) :=
  ⟨(setSize_idempotent_and_realloc blackTexA ⟨2, 2⟩).1,
   (setSize_idempotent_and_realloc blackTexA ⟨2, 2⟩).2 (by decide)⟩

theorem winRun_append (a b : List WinEv) : ∀ s : WinState,
    winRun s (a ++ b) = (winRun s a).bind fun s1 => winRun s1 b := by
  induction a with
  | nil => intro s; rfl
  | cons e es ih =>
    intro s
    simp only [List.cons_append, winRun]
    cases h : winStep s e with
    | none => rfl
    | some s1 => exact ih s1

/-- A step taken with the loop dead keeps it dead and cannot be a service
event. -/
theorem winStep_dead {s s1 : WinState} {e : WinEv} (hd : s.loopAlive = false)
    (h : winStep s e = some s1) :
    s1.loopAlive = false ∧ e ≠ WinEv.svcRun ∧ e ≠ WinEv.svcPub := by
  cases e <;> simp only [winStep] at h
  · injection h with h1
    subst h1
    exact ⟨hd, by decide, by decide⟩
  · injection h with h1
    subst h1
    exact ⟨hd, by decide, by decide⟩
  · split at h
    · cases h
    · injection h with h1
      subst h1
      exact ⟨hd, by decide, by decide⟩
  · split at h
    · rename_i hc
      rw [hd] at hc
      exact absurd hc.1 (by decide)
    · cases h
  · split at h
    · rename_i hc
      rw [hd] at hc
      exact absurd hc.1 (by decide)
    · cases h
  · split at h
    · rename_i hc
      rw [hd] at hc
      exact absurd hc.1 (by decide)
    · cases h
  · split at h
    · injection h with h1
      subst h1
      exact ⟨hd, by decide, by decide⟩
    · cases h

/-- Once the loop is dead, a valid continuation contains no service event. -/
theorem winRun_dead : ∀ (es : List WinEv) (s s2 : WinState), s.loopAlive = false →
    winRun s es = some s2 → ∀ e ∈ es, e ≠ WinEv.svcRun ∧ e ≠ WinEv.svcPub := by
  intro es
  induction es with
  | nil =>
    intro s s2 _ _ e he
    cases he
  | cons e0 es ih =>
    intro s s2 hd h e he
    simp only [winRun] at h
    cases hstep : winStep s e0 with
    | none =>
      rw [hstep] at h
      cases h
    | some s1 =>
      rw [hstep] at h
      obtain ⟨hd1, hne1, hne2⟩ := winStep_dead hd hstep
      rcases List.mem_cons.mp he with he0 | hes
      · subst he0
        exact ⟨hne1, hne2⟩
      · exact ih s1 s2 hd1 h e hes

theorem winStep_recvClose {s s1 : WinState} (h : winStep s .recvClose = some s1) :
    s1.loopAlive = false := by
  simp only [winStep] at h
  split at h
  · injection h with h1
    subst h1
    rfl
  · cases h

/-- Claim C1 amended: once the window thread receives the close signal
(`recvClose`, the loop's exit), no enqueued function or publish is ever
serviced afterwards; since `Close()`'s cleanup (hook, close event, texture
delete, window destroy) runs only after that receipt, no request executes
against freed window resources.  (A request enqueued concurrently with or
after `Close()` may still be serviced — see the counterexample — but only
before the stop signal is received, i.e. never against freed state.) -/
theorem close_stops_service (t1 t2 : List WinEv) (s : WinState)
    (h : winRun win0 (t1 ++ WinEv.recvClose :: t2) = some s) :
    ∀ e ∈ t2, e ≠ WinEv.svcRun ∧ e ≠ WinEv.svcPub := by
  rw [winRun_append] at h
  cases h1 : winRun win0 t1 with
  | none =>
    rw [h1] at h
    cases h
  | some s1 =>
    rw [h1] at h
    simp only [Option.bind, winRun] at h
    cases hstep : winStep s1 .recvClose with
    | none =>
      rw [hstep] at h
      cases h
    | some s2 =>
      rw [hstep] at h
      exact winRun_dead t2 s2 s (winStep_recvClose hstep) h

/-- Witness for the amended C1: in the trace close-signal, receive, cleanup,
the post-receipt event is not a service. -/
theorem close_stops_service_witness :
    WinEv.cleanup ≠ WinEv.svcRun ∧ WinEv.cleanup ≠ WinEv.svcPub :=
  close_stops_service [WinEv.enqClose] [WinEv.cleanup] ⟨0, 0, false, false, true, true⟩
    (by decide) WinEv.cleanup (by decide)

/-- Claim C1 counterexample: a publish request enqueued after `Close()` has
already posted its stop signal (the sender is blocked on `winClose`) can
still be serviced — the loop's `select` may pick the `publish` channel while
`winClose` is also ready — so such a request is not discarded; it is
executed (before the stop signal is received and before cleanup). -/
theorem close_discard_cex :
    winRun win0 [WinEv.enqClose, WinEv.enqPub, WinEv.svcPub, WinEv.recvClose, WinEv.cleanup] =
      some ⟨0, 0, false, false, true, true⟩ := by
  decide

/-- Claim C5: a structural ("any mod") change forces a full re-render of the
entire subtree; a cosmetic ("any update") change on a node that can
re-render in isolation re-renders only that node's subtree into the
existing pixel buffer, leaving every pixel outside the node's bounding box
bit-identical; a cosmetic change on a node without that capability restyles
top-down from the node and then fully re-renders the viewport. -/
theorem signalViewport2D_classification (vp : VPBuf) (n : RNode) (scene : Pt → Color) :
    (signalViewport2D vp n .nodeMod scene = fullRender2DTree vp scene) ∧
    (n.canReRender = true →
      (signalViewport2D vp n .nodeUpdated scene).log = vp.log ++ [.renderNode, .present] ∧
      ∀ p : Pt, ¬ p.inR n.bbox →
        (signalViewport2D vp n .nodeUpdated scene).pixels p = vp.pixels p) ∧
    (n.canReRender = false →
      signalViewport2D vp n .nodeUpdated scene = reRender2DTree (style2DTree vp) scene ∧
      (signalViewport2D vp n .nodeUpdated scene).log =
        vp.log ++ [.styleFromNode, .fullRender]) := by
  refine ⟨rfl, fun hc => ⟨?_, ?_⟩, fun hc => ⟨?_, ?_⟩⟩
  · simp [signalViewport2D, nodeSignalAnyMod, nodeSignalAnyUpdate, hc, reRender2DNode]
  · intro p hp
    simp [signalViewport2D, nodeSignalAnyMod, nodeSignalAnyUpdate, hc, reRender2DNode, hp]
  · simp [signalViewport2D, nodeSignalAnyMod, nodeSignalAnyUpdate, hc]
  · simp [signalViewport2D, nodeSignalAnyMod, nodeSignalAnyUpdate, hc, reRender2DTree,
      style2DTree, List.append_assoc]

/-- Witness for C5 on a black buffer with a red-painting node. -/
theorem signalViewport2D_classification_witness :
    (signalViewport2D vpb0 rnode0 .nodeMod scene0 = fullRender2DTree vpb0 scene0) ∧
    (signalViewport2D vpb0 rnode0 .nodeUpdated scene0).pixels ⟨0, 0⟩ = vpb0.pixels ⟨0, 0⟩ ∧
    (signalViewport2D vpb0 rnode1 .nodeUpdated scene0).log =
      vpb0.log ++ [.styleFromNode, .fullRender] :=
  ⟨(signalViewport2D_classification vpb0 rnode0 scene0).1,
   ((signalViewport2D_classification vpb0 rnode0 scene0).2.1 (by decide)).2 ⟨0, 0⟩ (by decide),
   ((signalViewport2D_classification vpb0 rnode1 scene0).2.2 (by decide)).2⟩

theorem drawSrc_rect (dst : Buf) (r : Rect) (src : Buf) (sp : Pt) :
    (drawSrc dst r src sp).rect = dst.rect := rfl

/-- The backing-then-pixels `draw.Src` pair: when the backing buffer has the
same bounds as the pixels buffer, the second draw overwrites everything the
first wrote, so the pair behaves like the pixels draw alone. -/
theorem drawPair_pix (P : Buf) (r : Rect) (B C : Buf) (q : Pt) (hBC : B.rect = C.rect) :
    (drawSrc (drawSrc P r B ⟨0, 0⟩) r C ⟨0, 0⟩).pix q =
      if q.inR ((r.inter P.rect).inter (C.rect.add (r.rmin.sub ⟨0, 0⟩))) then
        C.pix ((⟨0, 0⟩ : Pt).add (q.sub r.rmin))
      else P.pix q := by
  simp only [drawSrc]
  rw [hBC]
  by_cases hq : q.inR ((r.inter P.rect).inter (C.rect.add (r.rmin.sub ⟨0, 0⟩)))
  · rw [if_pos hq, if_pos hq]
  · rw [if_neg hq, if_neg hq, if_neg hq]

/-- Claim C6: rendering an unchanged child viewport into its parent twice in
succession yields identical parent pixels both times — the backing-copy
before drawing and the backing-then-pixels draw order never accumulate
stale pixels — for well-formed viewports (pixel and backing buffers sized
to the viewport's own bounds). -/
theorem renderIntoParent_stable (vp par : VP)
    (hwf : vp.pixels.rect = vp.viewBox.sizeRect)
    (hb : ∀ b, vp.backing = some b → b.rect = vp.viewBox.sizeRect)
    (q : Pt) :
    ((vp.renderIntoParent par).1.renderIntoParent (vp.renderIntoParent par).2).2.pixels.pix q =
      (vp.renderIntoParent par).2.pixels.pix q := by
  cases hback : vp.backing with
  | none =>
    simp only [VP.renderIntoParent, VP.copyBacking, VP.drawIntoParent, hback]
    set r := vp.viewBox.bounds with hxr
    set B1 := drawSrc (newBuf vp.viewBox.sizeRect) r par.pixels ⟨0, 0⟩ with hxB1
    set P1 := drawSrc (drawSrc par.pixels r B1 ⟨0, 0⟩) r vp.pixels ⟨0, 0⟩ with hxP1
    set B2 := drawSrc B1 r P1 ⟨0, 0⟩ with hxB2
    have h1 : B1.rect = vp.pixels.rect := by
      rw [hxB1]
      exact hwf.symm
    have h2 : B2.rect = vp.pixels.rect := by
      rw [hxB2]
      exact h1
    rw [drawPair_pix P1 r B2 vp.pixels q h2, drawPair_pix par.pixels r B1 vp.pixels q h1]
    have hP1r : P1.rect = par.pixels.rect := by
      rw [hxP1]
      rfl
    rw [hP1r]
    by_cases hq : q.inR ((r.inter par.pixels.rect).inter
        (vp.pixels.rect.add (r.rmin.sub ⟨0, 0⟩)))
    · rw [if_pos hq, if_pos hq]
    · rw [if_neg hq, if_neg hq]
  | some b =>
    have hbr : b.rect = vp.viewBox.sizeRect := hb b hback
    simp only [VP.renderIntoParent, VP.copyBacking, VP.drawIntoParent, hback]
    set r := vp.viewBox.bounds with hxr
    set B1 := drawSrc b r par.pixels ⟨0, 0⟩ with hxB1
    set P1 := drawSrc (drawSrc par.pixels r B1 ⟨0, 0⟩) r vp.pixels ⟨0, 0⟩ with hxP1
    set B2 := drawSrc B1 r P1 ⟨0, 0⟩ with hxB2
    have h1 : B1.rect = vp.pixels.rect := by
      rw [hxB1]
      exact hbr.trans hwf.symm
    have h2 : B2.rect = vp.pixels.rect := by
      rw [hxB2]
      exact h1
    rw [drawPair_pix P1 r B2 vp.pixels q h2, drawPair_pix par.pixels r B1 vp.pixels q h1]
    have hP1r : P1.rect = par.pixels.rect := by
      rw [hxP1]
      rfl
    rw [hP1r]
    by_cases hq : q.inR ((r.inter par.pixels.rect).inter
        (vp.pixels.rect.add (r.rmin.sub ⟨0, 0⟩)))
    · rw [if_pos hq, if_pos hq]
    · rw [if_neg hq, if_neg hq]

/-- Witness for C6 on a 2×2 red child composited into a 4×4 black parent. -/
theorem renderIntoParent_stable_witness :
    ((childVP.renderIntoParent parVP).1.renderIntoParent
        (childVP.renderIntoParent parVP).2).2.pixels.pix ⟨1, 1⟩ =
      (childVP.renderIntoParent parVP).2.pixels.pix ⟨1, 1⟩ :=
  renderIntoParent_stable childVP parVP rfl
    (fun b hb => by
      injection hb with h
      rw [← h]
      rfl) ⟨1, 1⟩

/-- Claim C7: rendering a viewport whose bounding box is empty draws nothing
and pushes nothing (the whole render is a no-op); otherwise the clip pushed
before rendering is popped on exit, so `Render2D` always restores the clip
stack depth (given children that preserve it, as balanced renders do). -/
theorem render2D_clip_balance (vp : VPR) (children : RState → RState)
    (hch : ∀ rs : RState, (children rs).boundsStack.length = rs.boundsStack.length) :
    (vp.render2D children).render.boundsStack.length = vp.render.boundsStack.length ∧
    (vp.vpBBox.isEmpty = true → vp.render2D children = vp) := by
  unfold VPR.render2D VPR.pushBounds
  by_cases he : vp.vpBBox.isEmpty = true
  · rw [if_pos he]
    exact ⟨rfl, fun _ => rfl⟩
  · rw [if_neg he]
    refine ⟨?_, fun hc => absurd hc he⟩
    dsimp only
    by_cases hf : vp.fill = true
    · rw [if_pos hf]
      simp [VPR.popBounds, RState.popB, RState.pushB, drawRectangleFill, hch]
    · rw [if_neg hf]
      simp [VPR.popBounds, RState.popB, RState.pushB, hch]

/-- Witness for C7: identity children on a non-empty box preserve the
depth; an empty box renders to the identical viewport. -/
theorem render2D_clip_balance_witness :
    (vpr0.render2D id).render.boundsStack.length = vpr0.render.boundsStack.length ∧
    vprEmpty.render2D id = vprEmpty :=
  ⟨(render2D_clip_balance vpr0 id (fun _ => rfl)).1,
   (render2D_clip_balance vprEmpty id (fun _ => rfl)).2 (by decide)⟩

end Gi
